import Mathlib

/-!
Verification of the TAP → TZX transcoder (`src/main.rs`) against its
natural-language specification.

The core of the program is the function `tap2tzx` together with its helpers
`write_tzx_header`, `write_tzx_block` and `read_le_u16`.  We embed them
shallowly: byte buffers become `List Nat` (each entry a byte value), the
output sink becomes the list of bytes written so far, and the fallible
computation returns an `Except`.  A Rust panic (an out-of-bounds slice index,
which aborts the program without returning a `Result` to the caller) is
modelled by the distinguished outcome `TapError.panicked`, kept separate from
the `anyhow` error return `TapError.malformedInput` produced by
`read_le_u16`.
-/

/-- Outcomes of a failed conversion.
`malformedInput offset` embeds the `anyhow!` error returned by `read_le_u16`
("Expected u16 but found u8 - malformed input at {offset}?").
`panicked` embeds a Rust panic caused by an out-of-bounds slice index
(`mem[a..b]` with `a > b` or `b > mem.len()`); a panic aborts the process and
is not an error value returned to the caller. -/
inductive TapError where
  | malformedInput (offset : Nat)
  | panicked
deriving DecidableEq, Repr

/-- Embeds `read_le_u16` (src/main.rs:141-153): given the slice
`input = tap[pos..]`, fail with the malformed-input error at `pos` when fewer
than 2 bytes remain, otherwise decode the first two bytes as a little-endian
u16 (`u16::from_le_bytes [b0, b1] = b0 + 256 * b1`).  The source also advances
the borrowed slice past the two bytes, but its caller passes a temporary
slice, so that effect is invisible to the caller and is not modelled. -/
def read_le_u16 (input : List Nat) (pos : Nat) : Except TapError Nat :=
  match input with
  | b0 :: b1 :: _ => Except.ok (b0 + 256 * b1)
  | _ => Except.error (TapError.malformedInput pos)

/-- Rust slice indexing `mem[a..b]`: defined (returning the sublist) when
`a ≤ b ∧ b ≤ mem.len()`, otherwise a panic, modelled as `none`. -/
def sliceRange (mem : List Nat) (a b : Nat) : Option (List Nat) :=
  if a ≤ b ∧ b ≤ mem.length then some ((mem.drop a).take (b - a)) else none

/-- Embeds `write_tzx_block` (src/main.rs:115-136): the bytes it writes to the
sink, namely the 3 block-header bytes `0x10, 0xE8, 0x03` (block ID and the
fixed 1000 ms pause, little-endian), then the slice `mem[pos-2..pos]` (the
original 2-byte length prefix), then the payload slice
`mem[pos..pos+block_len]`.  There is no bounds check in the source: an
out-of-bounds slice panics, which here surfaces as `none`.  (`pos - 2` is
truncated `Nat` subtraction; every call site has `pos ≥ 2`.  In the source
the two header writes precede the panicking payload slice, so a panicking
run has already pushed 5 bytes to the sink; `none` here simply marks the
abort, and no theorem below asserts the sink contents of a panicking run.) -/
def write_tzx_block (mem : List Nat) (pos : Nat) (block_len : Nat) : Option (List Nat) :=
  match sliceRange mem (pos - 2) pos, sliceRange mem pos (pos + block_len) with
  | some lenBytes, some payload => some ([0x10, 0xE8, 0x03] ++ lenBytes ++ payload)
  | _, _ => none

/-- Embeds `write_tzx_header` (src/main.rs:106-112): the fixed 10 bytes
`'Z','X','T','a','p','e','!', 0x1A, 1, 20` written before anything else. -/
def tzx_header : List Nat :=
  [0x5A, 0x58, 0x54, 0x61, 0x70, 0x65, 0x21, 0x1A, 1, 20]

/-- Two's-complement reduction into the `i32` range `[-2^31, 2^31)`, written
with the literals `2147483648 = 2^31` and `4294967296 = 2^32`.  This is the
release-mode overflow semantics of the Rust `i32` counter `block_count`:
`block_count += 1` wraps from `2^31 - 1` to `-2^31`.  (A debug build would
instead panic at that same increment; the wrapping build is modelled.) -/
def wrap_i32 (n : Int) : Int :=
  (n + 2147483648) % 4294967296 - 2147483648

/-- Embeds the `while pos < size` loop of `tap2tzx` (src/main.rs:87-98),
started at cursor `pos` with running block count `count`.  Returns the bytes
the loop writes to the sink from this point on, paired with the outcome:
`Except.ok` of the final count, or the error/panic that stopped the loop.
Bytes already written before a failure are kept, as they are in the sink.
One iteration: read the length prefix at `pos` (error aborts), advance the
cursor by 2, emit a block when `block_len ≠ 0` (a panic aborts), advance the
cursor by `block_len`, increment the count.  `block_count` is an `i32` in
the source, so the increment wraps through `wrap_i32`. -/
def tap2tzxLoop (tap : List Nat) (pos : Nat) (count : Int) :
    List Nat × Except TapError Int :=
  if _h : pos < tap.length then
    match read_le_u16 (tap.drop pos) pos with
    | Except.error e => ([], Except.error e)
    | Except.ok block_len =>
      if block_len ≠ 0 then
        match write_tzx_block tap (pos + 2) block_len with
        | none => ([], Except.error TapError.panicked)
        | some bs =>
          let r := tap2tzxLoop tap (pos + 2 + block_len) (wrap_i32 (count + 1))
          (bs ++ r.1, r.2)
      else
        tap2tzxLoop tap (pos + 2 + block_len) (wrap_i32 (count + 1))
  else ([], Except.ok count)
termination_by tap.length - pos
decreasing_by all_goals omega

/-- Embeds `tap2tzx` (src/main.rs:76-103): write the fixed 10-byte header,
then run the block loop from `pos = 0`, `count = 0`.  The first component is
the full content of the sink (the flush on a `Vec`-like sink is a no-op), the
second the returned `Result<i32>`: the count is an `i32`, modelled as an
`Int` kept in the `i32` range by `wrap_i32` at each increment. -/
def tap2tzx (tap : List Nat) : List Nat × Except TapError Int :=
  let r := tap2tzxLoop tap 0 0
  (tzx_header ++ r.1, r.2)

/-- A conversion of `tap` written into a sink that already holds `sink`
bytes; a fresh sink is `[]`.  Wraps `tap2tzx`, which appends its output. -/
def tap2tzxInto (tap sink : List Nat) : List Nat × Except TapError Int :=
  let r := tap2tzx tap
  (sink ++ r.1, r.2)

/-- Fuel-bounded version of `tap2tzxLoop`: identical body, but each iteration
consumes one unit of fuel and running out of fuel yields `none`.  Used to
state termination: a fuel budget of half the remaining bytes is always
enough, because every iteration advances the cursor by at least 2. -/
def tap2tzxLoopFuel : Nat → List Nat → Nat → Int → Option (List Nat × Except TapError Int)
  | 0, _, _, _ => none
  | fuel + 1, tap, pos, count =>
    if pos < tap.length then
      match read_le_u16 (tap.drop pos) pos with
      | Except.error e => some ([], Except.error e)
      | Except.ok block_len =>
        if block_len ≠ 0 then
          match write_tzx_block tap (pos + 2) block_len with
          | none => some ([], Except.error TapError.panicked)
          | some bs =>
            match tap2tzxLoopFuel fuel tap (pos + 2 + block_len) (wrap_i32 (count + 1)) with
            | none => none
            | some r => some (bs ++ r.1, r.2)
        else
          tap2tzxLoopFuel fuel tap (pos + 2 + block_len) (wrap_i32 (count + 1))
    else some ([], Except.ok count)

/-! ## The source container, seen abstractly

A well-formed input buffer is the byte-for-byte encoding of a list of
payloads: each block is a 2-byte little-endian length prefix followed by its
payload.  `tzxBlock` is the output block the transcoder emits for one
non-empty payload: the 3 fixed header bytes, the same two prefix bytes that
appear in the input, then the payload verbatim. -/

/-- One source block: little-endian length prefix, then the payload. -/
def encodeBlock (p : List Nat) : List Nat :=
  p.length % 256 :: p.length / 256 :: p

/-- A whole well-formed input buffer: blocks laid out back-to-back. -/
def tapOfBlocks (ps : List (List Nat)) : List Nat :=
  (ps.map encodeBlock).flatten

/-- Each payload's length fits the 2-byte length prefix. -/
def WellFormedBlocks (ps : List (List Nat)) : Prop :=
  ∀ p ∈ ps, p.length ≤ 65535

/-- The output block emitted for one non-empty source block: `0x10`, the pause
bytes `0xE8 0x03`, the two length-prefix bytes exactly as they stand in the
input (`encodeBlock` puts those same two bytes there), then the payload. -/
def tzxBlock (p : List Nat) : List Nat :=
  0x10 :: 0xE8 :: 0x03 :: p.length % 256 :: p.length / 256 :: p

/-- All output blocks of a conversion: one per source block with a non-empty
payload, in input order; empty blocks contribute nothing. -/
def tzxBlocks (ps : List (List Nat)) : List Nat :=
  ((ps.filter fun p => p.length != 0).map tzxBlock).flatten

/-! ## Helper lemmas -/

theorem drop_length_append (l r : List Nat) : (l ++ r).drop l.length = r := by
  simp

theorem take_length_append (l r : List Nat) : (l ++ r).take l.length = l := by
  simp

theorem length_encodeBlock (p : List Nat) : (encodeBlock p).length = 2 + p.length := by
  simp [encodeBlock]; omega

theorem tapOfBlocks_cons (p : List Nat) (ps : List (List Nat)) :
    tapOfBlocks (p :: ps) = encodeBlock p ++ tapOfBlocks ps := by
  simp [tapOfBlocks]

theorem tzxBlocks_cons_ne (p : List Nat) (ps : List (List Nat)) (hp : p.length ≠ 0) :
    tzxBlocks (p :: ps) = tzxBlock p ++ tzxBlocks ps := by
  simp [tzxBlocks, List.filter_cons, hp]

theorem tzxBlocks_cons_eq (p : List Nat) (ps : List (List Nat)) (hp : p.length = 0) :
    tzxBlocks (p :: ps) = tzxBlocks ps := by
  simp [tzxBlocks, List.filter_cons, hp]

theorem read_le_u16_at_block (pre p tail : List Nat) :
    read_le_u16 ((pre ++ (encodeBlock p ++ tail)).drop pre.length) pre.length =
      Except.ok p.length := by
  rw [drop_length_append]
  simp only [encodeBlock, List.cons_append]
  simp [read_le_u16, Nat.mod_add_div]

theorem write_tzx_block_at (pre p tail : List Nat) :
    write_tzx_block (pre ++ (encodeBlock p ++ tail)) (pre.length + 2) p.length =
      some (tzxBlock p) := by
  have hlen : (pre ++ (encodeBlock p ++ tail)).length = pre.length + 2 + p.length + tail.length := by
    simp [encodeBlock]; omega
  have hd2 : (pre ++ (encodeBlock p ++ tail)).drop (pre.length + 2) = p ++ tail := by
    have h : pre ++ (encodeBlock p ++ tail) =
        (pre ++ [p.length % 256, p.length / 256]) ++ (p ++ tail) := by
      simp [encodeBlock]
    rw [h]
    have h2 : pre.length + 2 = (pre ++ [p.length % 256, p.length / 256]).length := by
      simp
    rw [h2, drop_length_append]
  have hd0 : (pre ++ (encodeBlock p ++ tail)).drop pre.length = encodeBlock p ++ tail :=
    drop_length_append _ _
  rw [write_tzx_block]
  rw [show pre.length + 2 - 2 = pre.length from by omega]
  rw [sliceRange, sliceRange]
  rw [if_pos (by constructor <;> omega)]
  rw [if_pos (by constructor <;> omega)]
  rw [show pre.length + 2 - pre.length = 2 from by omega]
  rw [show pre.length + 2 + p.length - (pre.length + 2) = p.length from by omega]
  rw [hd0, hd2, take_length_append]
  simp only [encodeBlock, List.cons_append]
  simp [tzxBlock]

theorem wrap_i32_idem (n : Int) : wrap_i32 (wrap_i32 n) = wrap_i32 n := by
  unfold wrap_i32; omega

theorem wrap_i32_add_left (a b : Int) : wrap_i32 (wrap_i32 a + b) = wrap_i32 (a + b) := by
  unfold wrap_i32; omega

theorem wrap_i32_eq_self (n : Int) (h1 : -2147483648 ≤ n) (h2 : n < 2147483648) :
    wrap_i32 n = n := by
  unfold wrap_i32; omega

theorem loop_step (pre tail p : List Nat) (c : Int) (hp : p.length ≠ 0) :
    tap2tzxLoop (pre ++ (encodeBlock p ++ tail)) pre.length c =
      (tzxBlock p ++
        (tap2tzxLoop (pre ++ (encodeBlock p ++ tail)) (pre.length + 2 + p.length)
          (wrap_i32 (c + 1))).1,
       (tap2tzxLoop (pre ++ (encodeBlock p ++ tail)) (pre.length + 2 + p.length)
          (wrap_i32 (c + 1))).2) := by
  have hlen : (pre ++ (encodeBlock p ++ tail)).length = pre.length + 2 + p.length + tail.length := by
    simp [encodeBlock]; omega
  rw [tap2tzxLoop]
  rw [dif_pos (by omega)]
  rw [read_le_u16_at_block]
  simp only [if_pos hp, write_tzx_block_at]

theorem loop_step_zero (pre tail p : List Nat) (c : Int) (hp : p.length = 0) :
    tap2tzxLoop (pre ++ (encodeBlock p ++ tail)) pre.length c =
      tap2tzxLoop (pre ++ (encodeBlock p ++ tail)) (pre.length + 2 + p.length)
        (wrap_i32 (c + 1)) := by
  have hlen : (pre ++ (encodeBlock p ++ tail)).length = pre.length + 2 + p.length + tail.length := by
    simp [encodeBlock]; omega
  rw [tap2tzxLoop]
  rw [dif_pos (by omega)]
  rw [read_le_u16_at_block]
  simp only [hp, if_neg (by simp : ¬ ((0 : Nat) ≠ 0))]

theorem loop_run (ps : List (List Nat)) (pre suf : List Nat) (c : Int)
    (hc : wrap_i32 c = c) :
    tap2tzxLoop (pre ++ (tapOfBlocks ps ++ suf)) pre.length c =
      (tzxBlocks ps ++
        (tap2tzxLoop (pre ++ (tapOfBlocks ps ++ suf))
          (pre.length + (tapOfBlocks ps).length) (wrap_i32 (c + ps.length))).1,
       (tap2tzxLoop (pre ++ (tapOfBlocks ps ++ suf))
          (pre.length + (tapOfBlocks ps).length) (wrap_i32 (c + ps.length))).2) := by
  induction ps generalizing pre c hc with
  | nil => simp [tapOfBlocks, tzxBlocks, hc]
  | cons p ps ih =>
    have hassoc : pre ++ (tapOfBlocks (p :: ps) ++ suf) =
        (pre ++ encodeBlock p) ++ (tapOfBlocks ps ++ suf) := by
      rw [tapOfBlocks_cons]; simp
    have hassoc2 : pre ++ (tapOfBlocks (p :: ps) ++ suf) =
        pre ++ (encodeBlock p ++ (tapOfBlocks ps ++ suf)) := by
      rw [tapOfBlocks_cons]; simp
    have hpos : pre.length + 2 + p.length = (pre ++ encodeBlock p).length := by
      simp [length_encodeBlock]; omega
    have hpos2 : pre.length + (tapOfBlocks (p :: ps)).length =
        (pre ++ encodeBlock p).length + (tapOfBlocks ps).length := by
      rw [tapOfBlocks_cons]; simp [length_encodeBlock]; omega
    have hcnt : wrap_i32 (wrap_i32 (c + 1) + (ps.length : Int)) =
        wrap_i32 (c + ((p :: ps).length : Int)) := by
      rw [wrap_i32_add_left]
      congr 1
      push_cast [List.length_cons]
      ring
    by_cases hp : p.length = 0
    · rw [hassoc2, loop_step_zero pre (tapOfBlocks ps ++ suf) p c hp]
      rw [← hassoc2, hassoc, hpos]
      rw [ih (pre ++ encodeBlock p) (wrap_i32 (c + 1)) (wrap_i32_idem (c + 1))]
      rw [tzxBlocks_cons_eq p ps hp, hpos2, hcnt]
    · rw [hassoc2, loop_step pre (tapOfBlocks ps ++ suf) p c hp]
      rw [← hassoc2, hassoc, hpos]
      rw [ih (pre ++ encodeBlock p) (wrap_i32 (c + 1)) (wrap_i32_idem (c + 1))]
      rw [tzxBlocks_cons_ne p ps hp, hpos2, hcnt]
      simp [List.append_assoc]

theorem loop_done (tap : List Nat) (pos : Nat) (c : Int) (h : tap.length ≤ pos) :
    tap2tzxLoop tap pos c = ([], Except.ok c) := by
  rw [tap2tzxLoop]
  rw [dif_neg (by omega)]

theorem tap2tzx_wf (ps : List (List Nat)) :
    tap2tzx (tapOfBlocks ps) =
      (tzx_header ++ tzxBlocks ps, Except.ok (wrap_i32 (ps.length : Int))) := by
  have h := loop_run ps [] [] 0 (by unfold wrap_i32; omega)
  simp only [List.nil_append, List.append_nil, List.length_nil, Nat.zero_add,
    zero_add] at h
  rw [loop_done (tapOfBlocks ps) (tapOfBlocks ps).length
    (wrap_i32 (ps.length : Int)) (le_refl _)] at h
  simp only [List.append_nil] at h
  rw [tap2tzx, h]

theorem tap2tzx_wf_trailing (ps : List (List Nat)) (b : Nat) :
    tap2tzx (tapOfBlocks ps ++ [b]) =
      (tzx_header ++ tzxBlocks ps,
       Except.error (TapError.malformedInput (tapOfBlocks ps).length)) := by
  have h := loop_run ps [] [b] 0 (by unfold wrap_i32; omega)
  simp only [List.nil_append, List.length_nil, Nat.zero_add, zero_add] at h
  have hend : ∀ cnt : Int,
      tap2tzxLoop (tapOfBlocks ps ++ [b]) (tapOfBlocks ps).length cnt =
        ([], Except.error (TapError.malformedInput (tapOfBlocks ps).length)) := by
    intro cnt
    rw [tap2tzxLoop]
    rw [dif_pos (by simp)]
    rw [drop_length_append]
    simp [read_le_u16]
  rw [hend] at h
  simp only [List.append_nil] at h
  rw [tap2tzx, h]

theorem read_le_u16_short (l : List Nat) (pos : Nat) (h : l.length < 2) :
    read_le_u16 l pos = Except.error (TapError.malformedInput pos) := by
  match l with
  | [] => rfl
  | [x] => rfl
  | x :: y :: t => simp at h; omega

/-- One-step unfolding of the loop when the length prefix reads successfully. -/
theorem loop_eq_ok (tap : List Nat) (pos : Nat) (c : Int) (bl : Nat) (h : pos < tap.length)
    (hr : read_le_u16 (tap.drop pos) pos = Except.ok bl) :
    tap2tzxLoop tap pos c =
      if bl ≠ 0 then
        match write_tzx_block tap (pos + 2) bl with
        | none => ([], Except.error TapError.panicked)
        | some bs =>
          (bs ++ (tap2tzxLoop tap (pos + 2 + bl) (wrap_i32 (c + 1))).1,
           (tap2tzxLoop tap (pos + 2 + bl) (wrap_i32 (c + 1))).2)
      else tap2tzxLoop tap (pos + 2 + bl) (wrap_i32 (c + 1)) := by
  rw [tap2tzxLoop, dif_pos h, hr]

/-- One-step unfolding of the loop when the length prefix read fails. -/
theorem loop_eq_error (tap : List Nat) (pos : Nat) (c : Int) (e : TapError) (h : pos < tap.length)
    (hr : read_le_u16 (tap.drop pos) pos = Except.error e) :
    tap2tzxLoop tap pos c = ([], Except.error e) := by
  rw [tap2tzxLoop, dif_pos h, hr]

/-- One-step unfolding of the fuelled loop when the length prefix reads. -/
theorem loopFuel_eq_ok (f : Nat) (tap : List Nat) (pos : Nat) (c : Int) (bl : Nat)
    (h : pos < tap.length)
    (hr : read_le_u16 (tap.drop pos) pos = Except.ok bl) :
    tap2tzxLoopFuel (f + 1) tap pos c =
      if bl ≠ 0 then
        match write_tzx_block tap (pos + 2) bl with
        | none => some ([], Except.error TapError.panicked)
        | some bs =>
          match tap2tzxLoopFuel f tap (pos + 2 + bl) (wrap_i32 (c + 1)) with
          | none => none
          | some r => some (bs ++ r.1, r.2)
      else tap2tzxLoopFuel f tap (pos + 2 + bl) (wrap_i32 (c + 1)) := by
  rw [tap2tzxLoopFuel, if_pos h, hr]

/-- One-step unfolding of the fuelled loop when the length prefix read fails. -/
theorem loopFuel_eq_error (f : Nat) (tap : List Nat) (pos : Nat) (c : Int) (e : TapError)
    (h : pos < tap.length) (hr : read_le_u16 (tap.drop pos) pos = Except.error e) :
    tap2tzxLoopFuel (f + 1) tap pos c = some ([], Except.error e) := by
  rw [tap2tzxLoopFuel, if_pos h, hr]

theorem loopFuel_eq_done (f : Nat) (tap : List Nat) (pos : Nat) (c : Int) (h : ¬ pos < tap.length) :
    tap2tzxLoopFuel (f + 1) tap pos c = some ([], Except.ok c) := by
  rw [tap2tzxLoopFuel, if_neg h]

theorem length_tzxBlocks (ps : List (List Nat)) :
    (tzxBlocks ps).length =
      ((ps.filter fun p => p.length != 0).map fun p => 3 + 2 + p.length).sum := by
  induction ps with
  | nil => rfl
  | cons p ps ih =>
    by_cases hp : p.length = 0
    · rw [tzxBlocks_cons_eq p ps hp, ih]
      simp [List.filter_cons, hp]
    · rw [tzxBlocks_cons_ne p ps hp]
      simp [List.filter_cons, hp, ih, tzxBlock]
      omega

theorem read_le_u16_ok_length (l : List Nat) (pos bl : Nat)
    (h : read_le_u16 l pos = Except.ok bl) : 2 ≤ l.length := by
  match l with
  | [] => simp [read_le_u16] at h
  | [x] => simp [read_le_u16] at h
  | x :: y :: t => simp

theorem loopFuel_sound (fuel : Nat) (tap : List Nat) (pos : Nat) (c : Int)
    (h : tap.length - pos < 2 * fuel) :
    tap2tzxLoopFuel fuel tap pos c = some (tap2tzxLoop tap pos c) := by
  induction fuel generalizing pos c with
  | zero => omega
  | succ f ih =>
    by_cases hpos : pos < tap.length
    · cases hr : read_le_u16 (tap.drop pos) pos with
      | error e =>
        rw [loopFuel_eq_error f tap pos c e hpos hr, loop_eq_error tap pos c e hpos hr]
      | ok bl =>
        have h2 : 2 ≤ tap.length - pos := by
          have := read_le_u16_ok_length (tap.drop pos) pos bl hr
          rwa [List.length_drop] at this
        rw [loopFuel_eq_ok f tap pos c bl hpos hr, loop_eq_ok tap pos c bl hpos hr]
        by_cases hbl : bl = 0
        · rw [if_neg (by simp [hbl]), if_neg (by simp [hbl])]
          exact ih (pos + 2 + bl) (wrap_i32 (c + 1)) (by omega)
        · rw [if_pos hbl, if_pos hbl]
          cases hw : write_tzx_block tap (pos + 2) bl with
          | none => rfl
          | some bs => rw [ih (pos + 2 + bl) (wrap_i32 (c + 1)) (by omega)]
    · rw [loopFuel_eq_done f tap pos c hpos, loop_done tap pos c (by omega)]

/-! ## Claims -/

/-- Claim C1, counterexample.  On the input `[5, 0, 170]` the length prefix
declares 5 payload bytes but only 1 remains.  The conversion does not return
an out-of-bounds or malformed-input error: `write_tzx_block` indexes
`mem[2..7]` on a 3-byte buffer with no prior bounds check, which in Rust is a
panic (`TapError.panicked` in this model), so the claim's "returns an
error to the caller" and "does not panic" both fail. -/
theorem c1_claim_counterexample :
    (tap2tzx [5, 0, 170]).2 = Except.error TapError.panicked ∧
      (tap2tzx [5, 0, 170]).2 ≠ Except.error (TapError.malformedInput 2) := by
  constructor
  · simp [tap2tzx, tap2tzxLoop, read_le_u16, write_tzx_block, sliceRange, wrap_i32]
  · simp [tap2tzx, tap2tzxLoop, read_le_u16, write_tzx_block, sliceRange, wrap_i32]

/-- Claim C1, amended.  Whenever the scan reaches a block whose length prefix
`L ≠ 0` declares more payload bytes than remain in the buffer
(`pos + 2 + L > len`), the transcoder does not silently truncate the payload:
it aborts with a Rust panic (an out-of-bounds slice index in
`write_tzx_block`), rather than returning an out-of-bounds/MalformedInput
error to the caller. -/
theorem c1_overrun_panics (tap : List Nat) (pos : Nat) (c : Int) (L : Nat)
    (hpos : pos + 2 ≤ tap.length)
    (hL : read_le_u16 (tap.drop pos) pos = Except.ok L)
    (hnz : L ≠ 0) (hover : tap.length < pos + 2 + L) :
    (tap2tzxLoop tap pos c).2 = Except.error TapError.panicked := by
  rw [loop_eq_ok tap pos c L (by omega) hL, if_pos hnz]
  have hw : write_tzx_block tap (pos + 2) L = none := by
    rw [write_tzx_block]
    have h1 : sliceRange tap (pos + 2) (pos + 2 + L) = none := by
      rw [sliceRange, if_neg (by omega)]
    rw [h1]
    cases sliceRange tap (pos + 2 - 2) (pos + 2) with
    | none => rfl
    | some v => rfl
  rw [hw]

/-- Claim C1, witness for the amended theorem, at the buffer `[5, 0, 170]`. -/
theorem c1_overrun_panics_witness :
    (tap2tzxLoop [5, 0, 170] 0 0).2 = Except.error TapError.panicked :=
  c1_overrun_panics [5, 0, 170] 0 0 5 (by simp) rfl (by decide) (by simp)

/-- Claim C2: on a well-formed input, each source block with `L > 0` yields
exactly one output block — the header bytes `0x10, 0xE8, 0x03`, then the same
two length-prefix bytes that stand in the input (`tzxBlock` and `encodeBlock`
place the identical bytes `L % 256, L / 256`), then the `L` payload bytes
byte-identically — and blocks with `L = 0` yield nothing.  The claim is about
the emitted bytes, so the conclusion is the sink contents. -/
theorem c2_blocks_copied_verbatim (ps : List (List Nat)) (hps : WellFormedBlocks ps) :
    (tap2tzx (tapOfBlocks ps)).1 = tzx_header ++ tzxBlocks ps := by
  rw [tap2tzx_wf]

/-- Claim C2, witness at the single two-byte payload `[7, 8]`. -/
theorem c2_blocks_copied_verbatim_witness :
    (tap2tzx (tapOfBlocks [[7, 8]])).1 = tzx_header ++ tzxBlocks [[7, 8]] :=
  c2_blocks_copied_verbatim [[7, 8]] (by simp [WellFormedBlocks])

/-- Claim C3: every conversion writes the fixed 10-byte header
`Z X T a p e ! 0x1A 1 20` first — the sink contents always start with it —
and on the empty input the output is exactly those 10 bytes with count 0. -/
theorem c3_header_always_first (tap : List Nat) :
    (∃ rest, (tap2tzx tap).1 = tzx_header ++ rest) ∧
      tap2tzx [] = (tzx_header, Except.ok 0) := by
  refine ⟨⟨(tap2tzxLoop tap 0 0).1, rfl⟩, ?_⟩
  have h := loop_done [] 0 0 (by simp)
  simp [tap2tzx, h]

/-- Claim C4, counterexample.  The count `block_count` is an `i32`: on the
well-formed input of `2^31 = 2147483648` empty blocks (a 4 GiB buffer of
zero bytes) the `2^31` increments wrap to `-2^31`, so the returned count is
not the number of length-prefix reads performed (`2147483648`). -/
theorem c4_claim_counterexample :
    (tap2tzx (tapOfBlocks (List.replicate 2147483648 ([] : List Nat)))).2 ≠
      Except.ok ((List.replicate 2147483648 ([] : List Nat)).length : Int) := by
  intro hcontra
  rw [tap2tzx_wf] at hcontra
  have h2 := Except.ok.inj hcontra
  rw [List.length_replicate] at h2
  unfold wrap_i32 at h2
  omega

/-- Claim C4, amended: on a well-formed input with fewer than `2^31` source
blocks, the returned count equals the number of length-prefix reads
performed (the number of source blocks scanned), including blocks with
`L = 0` that emit no output; at `2^31` scanned blocks the `i32` count
instead wraps.  In particular the single empty block `[0, 0]` gives the bare
header and count 1. -/
theorem c4_count_counts_scanned_blocks (ps : List (List Nat)) (hps : WellFormedBlocks ps)
    (hlen : ps.length < 2147483648) :
    (tap2tzx (tapOfBlocks ps)).2 = Except.ok (ps.length : Int) ∧
      tap2tzx [0, 0] = (tzx_header, Except.ok 1) := by
  have hw : wrap_i32 ((ps.length : Nat) : Int) = (ps.length : Int) := by
    unfold wrap_i32
    omega
  constructor
  · rw [tap2tzx_wf, hw]
  · have h := tap2tzx_wf [[]]
    simpa [tapOfBlocks, encodeBlock, tzxBlocks, wrap_i32] using h

/-- Claim C4, witness at the single empty payload (`tapOfBlocks [[]] = [0, 0]`). -/
theorem c4_count_counts_scanned_blocks_witness :
    (tap2tzx (tapOfBlocks [[]])).2 = Except.ok 1 ∧
      tap2tzx [0, 0] = (tzx_header, Except.ok 1) :=
  c4_count_counts_scanned_blocks [[]] (by simp [WellFormedBlocks]) (by norm_num)

/-- Claim C5: when a length prefix is expected at `pos` but fewer than 2
bytes remain (`pos < len < pos + 2`) the loop fails with the malformed-input
error at offset `pos`; in particular a well-formed block layout followed by a
single trailing byte fails with the malformed-input error at that byte's
offset. -/
theorem c5_truncated_length_prefix_fails (tap : List Nat) (pos : Nat) (c : Int)
    (ps : List (List Nat)) (b : Nat)
    (h1 : pos < tap.length) (h2 : tap.length < pos + 2) (hps : WellFormedBlocks ps) :
    (tap2tzxLoop tap pos c).2 = Except.error (TapError.malformedInput pos) ∧
      (tap2tzx (tapOfBlocks ps ++ [b])).2 =
        Except.error (TapError.malformedInput (tapOfBlocks ps).length) := by
  constructor
  · rw [loop_eq_error tap pos c (TapError.malformedInput pos) h1
      (read_le_u16_short _ _ (by rw [List.length_drop]; omega))]
  · rw [tap2tzx_wf_trailing]

/-- Claim C5, witness: the 1-byte buffer `[9]`, and the layout `[1, 0, 5]`
followed by the odd trailing byte `3`. -/
theorem c5_truncated_length_prefix_fails_witness :
    (tap2tzxLoop [9] 0 0).2 = Except.error (TapError.malformedInput 0) ∧
      (tap2tzx (tapOfBlocks [[5]] ++ [3])).2 =
        Except.error (TapError.malformedInput (tapOfBlocks [[5]]).length) :=
  c5_truncated_length_prefix_fails [9] 0 0 [[5]] 3 (by simp) (by simp)
    (by simp [WellFormedBlocks])

/-- Claim C6: on a well-formed input, the total number of bytes written
equals 10 plus, for every source block with `L > 0`, `3 + 2 + L`. -/
theorem c6_output_length_equation (ps : List (List Nat)) (hps : WellFormedBlocks ps) :
    (tap2tzx (tapOfBlocks ps)).1.length =
      10 + ((ps.filter fun p => p.length != 0).map fun p => 3 + 2 + p.length).sum := by
  rw [tap2tzx_wf]
  simp [tzx_header, length_tzxBlocks]
  omega

/-- Claim C6, witness at the payload list `[[4, 5], [], [6]]`. -/
theorem c6_output_length_equation_witness :
    (tap2tzx (tapOfBlocks [[4, 5], [], [6]])).1.length =
      10 + (([[4, 5], [], [6]].filter fun p => p.length != 0).map
        fun p => 3 + 2 + p.length).sum :=
  c6_output_length_equation [[4, 5], [], [6]] (by simp [WellFormedBlocks])

/-- Claim C7: the reference 21-byte input (length prefix `0x0013` = 19, then
19 payload bytes) converts to the 10-byte header, then `10 E8 03`, then
`13 00`, then the 19 payload bytes verbatim, with count 1. -/
theorem c7_manic_miner_reference :
    tap2tzx [0x13, 0x00, 0x00, 0x00, 0x4D, 0x61, 0x6E, 0x69, 0x63, 0x4D, 0x69, 0x6E,
        0x65, 0x72, 0x45, 0x00, 0x0A, 0x00, 0x45, 0x00, 0x1F] =
      (tzx_header ++ [0x10, 0xE8, 0x03] ++ [0x13, 0x00] ++
        [0x00, 0x00, 0x4D, 0x61, 0x6E, 0x69, 0x63, 0x4D, 0x69, 0x6E, 0x65, 0x72,
         0x45, 0x00, 0x0A, 0x00, 0x45, 0x00, 0x1F],
       Except.ok 1) := by
  simp [tap2tzx, tap2tzxLoop, read_le_u16, write_tzx_block, sliceRange, tzx_header, wrap_i32]

/-- Claim C8: the transcoder is deterministic — converting the same buffer
twice, each time into a fresh (empty) sink, produces byte-identical sink
contents and equal returned counts. -/
theorem c8_deterministic (tap s₁ s₂ : List Nat) (h₁ : s₁ = []) (h₂ : s₂ = []) :
    tap2tzxInto tap s₁ = tap2tzxInto tap s₂ := by
  rw [h₁, h₂]

/-- Claim C8, witness at the buffer `[2, 0, 5, 6]`. -/
theorem c8_deterministic_witness :
    tap2tzxInto [2, 0, 5, 6] [] = tap2tzxInto [2, 0, 5, 6] [] :=
  c8_deterministic [2, 0, 5, 6] [] [] rfl rfl

/-- Claim C9: the scan terminates on every buffer, well-formed or not.  Every
iteration that does not stop advances the cursor by at least 2 bytes, so a
fuel budget of more than half the remaining bytes always suffices: the
fuelled loop finishes (returns `some`) and agrees with the loop. -/
theorem c9_loop_terminates (tap : List Nat) (pos : Nat) (c : Int) (fuel : Nat)
    (h : tap.length - pos < 2 * fuel) :
    tap2tzxLoopFuel fuel tap pos c = some (tap2tzxLoop tap pos c) :=
  loopFuel_sound fuel tap pos c h

/-- Claim C9, witness: the 7-byte buffer `[3, 0, 1, 2, 3, 0, 0]` (a 3-byte
block then an empty block) finishes within 4 iterations. -/
theorem c9_loop_terminates_witness :
    tap2tzxLoopFuel 4 [3, 0, 1, 2, 3, 0, 0] 0 0 =
      some (tap2tzxLoop [3, 0, 1, 2, 3, 0, 0] 0 0) :=
  c9_loop_terminates [3, 0, 1, 2, 3, 0, 0] 0 0 4 (by simp)

/-- Claim C10: failure is not atomic with respect to the sink — the 10-byte
header is written before any parsing, so whenever the conversion returns an
error the sink already starts with the header; and, as the concrete second
conjunct shows, it may also hold the complete output block of a source block
preceding the error point (`[2, 0, 9, 9]` is fully transcoded before the
trailing `[5]` fails at offset 4). -/
theorem c10_header_written_before_failure (tap : List Nat) (e : TapError)
    (h : (tap2tzx tap).2 = Except.error e) :
    (∃ rest, (tap2tzx tap).1 = tzx_header ++ rest) ∧
      tap2tzx [2, 0, 9, 9, 5] =
        (tzx_header ++ [0x10, 0xE8, 0x03, 2, 0, 9, 9],
         Except.error (TapError.malformedInput 4)) := by
  refine ⟨⟨(tap2tzxLoop tap 0 0).1, rfl⟩, ?_⟩
  simp [tap2tzx, tap2tzxLoop, read_le_u16, write_tzx_block, sliceRange, tzx_header, wrap_i32]

/-- Claim C10, witness at the buffer `[2, 0, 9, 9, 5]`, whose conversion
fails with the malformed-input error at offset 4. -/
theorem c10_header_written_before_failure_witness :
    (∃ rest, (tap2tzx [2, 0, 9, 9, 5]).1 = tzx_header ++ rest) ∧
      tap2tzx [2, 0, 9, 9, 5] =
        (tzx_header ++ [0x10, 0xE8, 0x03, 2, 0, 9, 9],
         Except.error (TapError.malformedInput 4)) :=
  c10_header_written_before_failure [2, 0, 9, 9, 5] (TapError.malformedInput 4)
    (by simp [tap2tzx, tap2tzxLoop, read_le_u16, write_tzx_block, sliceRange, wrap_i32])
